import Mathlib

/-!
Shallow embedding of the XML record/replay harness in
`oscar/SleepLib/deviceconnection.cpp` (the OSCAR device-connection core).

Modelling conventions:
* `QString` is Lean `String`.
* `QHash<QString, T>` is an association list `List (String × T)` with
  insert-replace semantics (`hinsert`); `QHash::operator==` (content
  equality, order-independent) is `qhashBEq`.  Keys stay unique because all
  maps are built from `[]` by `hinsert`.
* XML documents are the element tree actually produced/consumed by
  `QXmlStreamWriter`/`QXmlStreamReader` in this file: an element name, an
  attribute list in document order, and a child-element list in document
  order.  (No text nodes occur in the trace format.)
* `QDateTime` is an integer count of milliseconds; the ISO-8601 rendering
  used by the source is modelled by an injective decimal rendering, which is
  adequate because no claim depends on the concrete timestamp text (the
  deserializer discards the parsed value, see `readXmlReplayEvent`).
* `qWarning`/diagnostic emissions are returned as `List String` values.
* The ambient clock (`QDateTime::currentDateTime()`) is passed explicitly as
  a `now : Int` parameter.
-/

set_option autoImplicit false

namespace DeviceConnection

/-! ### QHash model -/

/-- Lookup in the association-list model of `QHash`. -/
def hlookup {α : Type} : List (String × α) → String → Option α
  | [], _ => none
  | (k, v) :: rest, key => if key = k then some v else hlookup rest key

/-- `QHash::contains`. -/
def hcontains {α : Type} (m : List (String × α)) (key : String) : Bool :=
  (hlookup m key).isSome

/-- `QHash` insertion (`operator[] =` / `insert`): replaces the value when the
key is present, otherwise appends the new binding. -/
def hinsert {α : Type} : List (String × α) → String → α → List (String × α)
  | [], key, v => [(key, v)]
  | (k, w) :: rest, key, v =>
    if key = k then (k, v) :: rest else (k, w) :: hinsert rest key v

/-- `QHash::operator==`: equal contents regardless of order. -/
def qhashBEq {α : Type} [DecidableEq α] (m₁ m₂ : List (String × α)) : Bool :=
  m₁.all (fun p => decide (hlookup m₂ p.1 = some p.2)) &&
  m₂.all (fun p => decide (hlookup m₁ p.1 = some p.2))

/-! ### Numeric text conversions -/

/-- One hexadecimal digit, uppercase (the source uppercases
`QString::number(i, 16)` before writing it). -/
def hexDigitChar (d : Nat) : Char :=
  if d < 10 then Char.ofNat (48 + d) else Char.ofNat (55 + d)

/-- Digit expansion of `QString::number(i, 16)` (most significant first),
written with explicit fuel so that it is structurally recursive. -/
def natToHexAux : Nat → Nat → List Char
  | 0, _ => []
  | fuel + 1, n =>
    if n < 16 then [hexDigitChar n]
    else natToHexAux fuel (n / 16) ++ [hexDigitChar (n % 16)]

/-- Hex digit string of a natural number, uppercase, MSB first. -/
def natToHexDigits (n : Nat) : List Char := natToHexAux (n + 1) n

/-- `hex(int)` from the source: `"0x" + QString::number(i, 16).toUpper()`. -/
def hex (i : Nat) : String := "0x" ++ String.mk (natToHexDigits i)

/-- Value of one digit character (`0-9`, `a-f`, `A-F`), `none` otherwise. -/
def hexDigitVal (c : Char) : Option Nat :=
  if 48 ≤ c.toNat ∧ c.toNat ≤ 57 then some (c.toNat - 48)
  else if 65 ≤ c.toNat ∧ c.toNat ≤ 70 then some (c.toNat - 55)
  else if 97 ≤ c.toNat ∧ c.toNat ≤ 102 then some (c.toNat - 87)
  else none

/-- Digit value restricted to a base. -/
def digitValInBase (base : Nat) (c : Char) : Option Nat :=
  match hexDigitVal c with
  | some d => if d < base then some d else none
  | none => none

/-- Accumulating digit-string parser; fails on any non-digit. -/
def parseUIntDigits (base : Nat) : List Char → Nat → Option Nat
  | [], acc => some acc
  | c :: rest, acc =>
    match digitValInBase base c with
    | some d => parseUIntDigits base rest (acc * base + d)
    | none => none

/-- `QString::toUInt(&ok, 0)`: C-convention base detection (`0x` → hex,
leading `0` → octal, otherwise decimal); fails on an empty digit string, a
non-digit, or overflow past `UINT_MAX`.  (Qt additionally trims surrounding
whitespace and accepts a leading `+`, which no value in this development
exercises.)  `none` models `ok == false`. -/
def toUIntBase0 (s : String) : Option Nat :=
  let r : Option Nat :=
    match s.data with
    | [] => none
    | '0' :: 'x' :: rest =>
      if rest = [] then none else parseUIntDigits 16 rest 0
    | '0' :: 'X' :: rest =>
      if rest = [] then none else parseUIntDigits 16 rest 0
    | '0' :: rest => parseUIntDigits 8 rest 0
    | l => parseUIntDigits 10 l 0
  match r with
  | some n => if n < 4294967296 then some n else none
  | none => none

/-- `QString::number(int)` for the values written by `SetValueEvent`. -/
def intToQString (i : Int) : String := toString i

/-- Millisecond timestamp rendering standing in for
`QDateTime::toString(Qt::ISODateWithMs)`; injective on the ms timeline, which
is all any claim uses. -/
def formatDateTime (t : Int) : String := toString t

/-- Millisecond timestamp parsing standing in for
`QDateTime::fromString(..., Qt::ISODateWithMs)`. -/
def parseDateTime (s : String) : Int :=
  Int.ofNat ((parseUIntDigits 10 s.data 0).getD 0)

/-! ### XML tree -/

/-- The XML produced/consumed by the trace format: one element with its
attributes and child elements, each list in document order. -/
inductive Xml where
  | elem (name : String) (attrs : List (String × String)) (children : List Xml)

/-- Element name (`QXmlStreamReader::name`). -/
def Xml.name : Xml → String
  | .elem n _ _ => n

/-- Attribute list in document order (`QXmlStreamReader::attributes`). -/
def Xml.attrs : Xml → List (String × String)
  | .elem _ a _ => a

/-- Child elements in document order. -/
def Xml.children : Xml → List Xml
  | .elem _ _ c => c

/-! ### SerialPortInfo -/

/-- `QVariant` as stored in a `SerialPortInfo` attribute bag: the source puts
`QString`s (the five standard attributes) and `quint16`s (the identifiers)
into `m_info`. -/
inductive QVariant where
  | str (s : String)
  | uint (n : Nat)
deriving DecidableEq

/-- `QVariant::toString` (only the variants above occur). -/
def QVariant.toQString : QVariant → String
  | .str s => s
  | .uint n => toString n

/-- `QVariant::toUInt` (only exercised on `uint` values in this development;
a stored string converts by decimal parse, 0 on failure, as in Qt). -/
def QVariant.toUIntQ : QVariant → Nat
  | .uint n => n
  | .str s => (parseUIntDigits 10 s.data 0).getD 0

/-- `SerialPortInfo`: a flattened attribute bag. -/
structure SerialPortInfo where
  m_info : List (String × QVariant)
deriving DecidableEq

/-- The relevant observable state of a live `QSerialPortInfo` (external Qt
collaborator): null flag, the five string properties, and the optional
16-bit identifiers. -/
structure QSerialPortInfo where
  isNull : Bool
  portName : String
  systemLocation : String
  description : String
  manufacturer : String
  serialNumber : String
  hasVendorIdentifier : Bool
  vendorIdentifier : Nat
  hasProductIdentifier : Bool
  productIdentifier : Nat

/-- `SerialPortInfo::SerialPortInfo(const QSerialPortInfo &)`: wraps a live
enumeration result, inserting the five standard keys and the identifiers the
live object has. -/
def SerialPortInfo.ofQSerialPortInfo (other : QSerialPortInfo) : SerialPortInfo :=
  if other.isNull = false then
    let m := hinsert [] "portName" (.str other.portName)
    let m := hinsert m "systemLocation" (.str other.systemLocation)
    let m := hinsert m "description" (.str other.description)
    let m := hinsert m "manufacturer" (.str other.manufacturer)
    let m := hinsert m "serialNumber" (.str other.serialNumber)
    let m := if other.hasVendorIdentifier then
        hinsert m "vendorIdentifier" (.uint other.vendorIdentifier) else m
    let m := if other.hasProductIdentifier then
        hinsert m "productIdentifier" (.uint other.productIdentifier) else m
    ⟨m⟩
  else ⟨[]⟩

/-- Modelled from the spec: `isNull()` is not in the excerpt (the class header
is outside `src/`); per the data model an empty attribute bag is the null
descriptor. -/
def SerialPortInfo.isNull (info : SerialPortInfo) : Bool := info.m_info.isEmpty

/-- Modelled from the spec: the string accessors (`portName()` etc.) are not
in the excerpt; they read the bag value for the fixed key as a string, the
empty string when the key is absent (a default-constructed `QVariant`). -/
def SerialPortInfo.strAttr (info : SerialPortInfo) (key : String) : String :=
  match hlookup info.m_info key with
  | some v => v.toQString
  | none => ""

/-- Modelled from the spec: `hasVendorIdentifier()` is key presence, keeping
an absent identifier distinguishable from a zero identifier. -/
def SerialPortInfo.hasVendorIdentifier (info : SerialPortInfo) : Bool :=
  hcontains info.m_info "vendorIdentifier"

/-- Modelled from the spec: `hasProductIdentifier()` is key presence. -/
def SerialPortInfo.hasProductIdentifier (info : SerialPortInfo) : Bool :=
  hcontains info.m_info "productIdentifier"

/-- Modelled from the spec: `vendorIdentifier()` reads the stored id (0 when
absent, as a default `QVariant` converts). -/
def SerialPortInfo.vendorIdentifier (info : SerialPortInfo) : Nat :=
  match hlookup info.m_info "vendorIdentifier" with
  | some v => v.toUIntQ
  | none => 0

/-- Modelled from the spec: `productIdentifier()` reads the stored id. -/
def SerialPortInfo.productIdentifier (info : SerialPortInfo) : Nat :=
  match hlookup info.m_info "productIdentifier" with
  | some v => v.toUIntQ
  | none => 0

/-- `operator<<(QXmlStreamWriter &, const SerialPortInfo &)`: one `serial`
element; for a non-null descriptor the five standard attributes are written
in a fixed order, then each identifier the descriptor has, rendered by
`hex`; a null descriptor gets no attributes. -/
def writeSerialPortInfo (info : SerialPortInfo) : Xml :=
  Xml.elem "serial"
    (if info.isNull = false then
      [("portName", info.strAttr "portName"),
       ("systemLocation", info.strAttr "systemLocation"),
       ("description", info.strAttr "description"),
       ("manufacturer", info.strAttr "manufacturer"),
       ("serialNumber", info.strAttr "serialNumber")]
      ++ (if info.hasVendorIdentifier then
            [("vendorIdentifier", hex info.vendorIdentifier)] else [])
      ++ (if info.hasProductIdentifier then
            [("productIdentifier", hex info.productIdentifier)] else [])
     else []) []

/-- One step of the attribute loop in
`operator>>(QXmlStreamReader &, SerialPortInfo &)`. -/
def readSerialAttr (acc : SerialPortInfo × List String) (a : String × String) :
    SerialPortInfo × List String :=
  if a.1 = "vendorIdentifier" ∨ a.1 = "productIdentifier" then
    match toUIntBase0 a.2 with
    | some id => (⟨hinsert acc.1.m_info a.1 (.uint (id % 65536))⟩, acc.2)
    | none => (acc.1, acc.2 ++ ["invalid " ++ a.1 ++ " value " ++ a.2])
  else (⟨hinsert acc.1.m_info a.1 (.str a.2)⟩, acc.2)

/-- `operator>>(QXmlStreamReader &, SerialPortInfo &)` positioned at one
element, starting from a default-constructed descriptor (as at every call
site): on a `serial` element each attribute is processed in document order —
identifier attributes are parsed with `toUInt(&ok, 0)` and stored (narrowed
to `quint16`) only when parsing succeeds, all other attributes are stored as
strings; a non-`serial` element leaves the descriptor empty with a
diagnostic.  The element is consumed (`skipCurrentElement`) either way. -/
def readSerialPortInfo (e : Xml) : SerialPortInfo × List String :=
  if e.name = "serial" then
    e.attrs.foldl readSerialAttr (⟨[]⟩, [])
  else (⟨[]⟩, ["no <serial> tag"])

/-- `SerialPortInfo::operator==`: full attribute-bag comparison. -/
def SerialPortInfo.eq (a b : SerialPortInfo) : Bool := qhashBEq a.m_info b.m_info

/-- `QList<SerialPortInfo>::operator==`: element-by-element comparison under
the attribute-bag equality. -/
def listPortsEq : List SerialPortInfo → List SerialPortInfo → Bool
  | [], [] => true
  | a :: as, b :: bs => a.eq b && listPortsEq as bs
  | _, _ => false

/-! ### Replay events -/

/-- Payload of a concrete `XmlReplayEvent` variant.  The excerpt registers a
single variant, `GetAvailablePortsEvent`, whose payload is the port list. -/
inductive EventData where
  | getAvailablePorts (m_ports : List SerialPortInfo)
deriving DecidableEq

/-- `XmlReplayEvent`: timestamp (set to the current time by the base
constructor) plus the variant payload. -/
structure XmlReplayEvent where
  m_time : Int
  data : EventData
deriving DecidableEq

/-- `tag()` of the variant (`XmlReplayBase<T>::TAG`). -/
def XmlReplayEvent.tag (e : XmlReplayEvent) : String :=
  match e.data with
  | .getAvailablePorts _ => "getAvailablePorts"

/-- The port-list payload (`GetAvailablePortsEvent::m_ports`). -/
def XmlReplayEvent.ports (e : XmlReplayEvent) : List SerialPortInfo :=
  match e.data with
  | .getAvailablePorts ps => ps

/-- `XmlReplayEvent::FactoryMethod`; the creation time of the fresh instance
(the base constructor's `QDateTime::currentDateTime()`) is passed in. -/
def FactoryMethod : Type := Int → XmlReplayEvent

/-- The factory registry `XmlReplayEvent::s_factories`'s type. -/
def Factories : Type := List (String × FactoryMethod)

/-- `XmlReplayEvent::registerClass`: refuses (with a diagnostic) to replace
an existing registration, otherwise adds the mapping and reports success. -/
def registerClass (tag : String) (factory : FactoryMethod) (s : Factories) :
    Bool × Factories × List String :=
  if hcontains s tag then
    (false, s, ["Event class already registered for tag " ++ tag])
  else
    (true, hinsert s tag factory, [])

/-- `XmlReplayEvent::createInstance`: looks the tag up in the registry and
runs the factory; a miss yields no event and a diagnostic. -/
def createInstance (tag : String) (s : Factories) (now : Int) :
    Option XmlReplayEvent × List String :=
  match hlookup s tag with
  | some factory => (some (factory now), [])
  | none => (none, ["No event class registered for XML tag " ++ tag])

/-- `XmlReplayBase<GetAvailablePortsEvent>::TAG`. -/
def GetAvailablePortsEvent.TAG : String := "getAvailablePorts"

/-- `XmlReplayBase<GetAvailablePortsEvent>::createInstance`: a fresh event
with an empty port list, timestamped with the current time by the base-class
constructor. -/
def GetAvailablePortsEvent.createInstance : FactoryMethod :=
  fun now => ⟨now, .getAvailablePorts []⟩

/-- The registry after static initialization:
`REGISTER_XMLREPLAYEVENT("getAvailablePorts", GetAvailablePortsEvent)`. -/
def s_factories : Factories :=
  (registerClass GetAvailablePortsEvent.TAG GetAvailablePortsEvent.createInstance []).2.1

/-- `operator>>(QXmlStreamReader &, QList<SerialPortInfo> &)`: clears the
list, then parses each child element in document order, appending each
result. -/
def readPortsList (children : List Xml) : List SerialPortInfo × List String :=
  children.foldl
    (fun acc c =>
      let (p, d) := readSerialPortInfo c
      (acc.1 ++ [p], acc.2 ++ d))
    ([], [])

/-- `operator>>(QXmlStreamReader &, XmlReplayEvent &)` positioned at the
event's element: reads the `time` attribute into a local (substituting the
current time, with a diagnostic, when it is absent), then delegates to the
variant's `read` for the children.  The source never assigns the local
`time` to `event.m_time` — the parsed timestamp is a dead store, so the
event keeps its construction time. -/
def readXmlReplayEvent (e : Xml) (event : XmlReplayEvent) (now : Int) :
    XmlReplayEvent × List String :=
  let td : Int × List String :=
    match hlookup e.attrs "time" with
    | some s => (parseDateTime s, [])
    | none => (now, ["Missing timestamp in " ++ e.name ++ " tag, using current time"])
  -- `td.1` is dropped below, mirroring the unused local in the source.
  let (ports, d) := readPortsList e.children
  let data : EventData :=
    match event.data with
    | .getAvailablePorts _ => .getAvailablePorts ports
  ({ event with data := data }, td.2 ++ d)

/-- `operator<<(QXmlStreamWriter &, const XmlReplayEvent &)`: one element
named by the tag, a `time` attribute with the millisecond timestamp, then the
variant's children (`GetAvailablePortsEvent::write` streams `m_ports`). -/
def writeXmlReplayEvent (event : XmlReplayEvent) : Xml :=
  Xml.elem event.tag [("time", formatDateTime event.m_time)]
    (match event.data with
     | .getAvailablePorts ports => ports.map writeSerialPortInfo)

/-! ### XmlReplay (event store and cursors) -/

/-- Per-tag event sequences (`m_events`). -/
def EventsMap : Type := List (String × List XmlReplayEvent)

/-- `XmlReplay`: the per-tag ordered event sequences and the parallel
per-tag replay cursors. -/
structure XmlReplay where
  m_events : EventsMap
  m_indices : List (String × Nat)

/-- The cursor for a tag: `m_indices[type]`, 0 when the tag has no entry yet
(a default-constructed `int`). -/
def XmlReplay.cursorOf (r : XmlReplay) (t : String) : Nat :=
  (hlookup r.m_indices t).getD 0

/-- `XmlReplay::deserializeEvents`: for each child of the `events` container
in document order, look the element name up in the registry; on a hit the
event is constructed, populated by `operator>>`, and appended to that tag's
sequence; on a miss the element (and its subtree) is skipped with the
`createInstance` diagnostic. -/
def deserializeEvents (reg : Factories) (now : Int) :
    EventsMap × List String → List Xml → EventsMap × List String
  | acc, [] => acc
  | acc, c :: rest =>
    let acc' :=
      match createInstance c.name reg now with
      | (some event, d) =>
        let (event', d₂) := readXmlReplayEvent c event now
        (hinsert acc.1 c.name ((hlookup acc.1 c.name).getD [] ++ [event']),
         acc.2 ++ d ++ d₂)
      | (none, d) => (acc.1, acc.2 ++ d)   -- skipCurrentElement
    deserializeEvents reg now acc' rest

/-- `XmlReplay::deserialize`: under an `xmlreplay` root, each `events` child
is deserialized; any other top-level child is skipped with a diagnostic.  A
document with a different root produces an empty store. -/
def XmlReplay.deserialize (reg : Factories) (now : Int) (doc : Xml) :
    EventsMap × List String :=
  if doc.name = "xmlreplay" then
    doc.children.foldl
      (fun acc child =>
        if child.name = "events" then deserializeEvents reg now acc child.children
        else (acc.1, acc.2 ++ ["unexpected payload in replay XML: " ++ child.name]))
      ([], [])
  else ([], [])

/-- Loading a replay store from a document: fresh cursors, the deserialized
event map, and the collected diagnostics. -/
def XmlReplay.load (reg : Factories) (now : Int) (doc : Xml) :
    XmlReplay × List String :=
  let (m, d) := XmlReplay.deserialize reg now doc
  (⟨m, []⟩, d)

/-- `XmlReplay::getNextEvent(const QString &)`: when the tag has stored
events and the cursor has not reached the end, returns the event at the
cursor and advances it by one; otherwise returns nothing and leaves the
cursor where it is.  (`m_indices[type]` as an rvalue inserts a default 0
entry when absent, which the model reproduces.) -/
def XmlReplay.getNextEvent (r : XmlReplay) (type : String) :
    Option XmlReplayEvent × XmlReplay :=
  if hcontains r.m_events type then
    let events := (hlookup r.m_events type).getD []
    let idxMap := if hcontains r.m_indices type then r.m_indices
                  else hinsert r.m_indices type 0
    let i := (hlookup idxMap type).getD 0
    if h : i < events.length then
      (some (events.get ⟨i, h⟩), { r with m_indices := hinsert idxMap type (i + 1) })
    else
      (none, { r with m_indices := idxMap })
  else
    (none, r)

/-- Repeated `getNextEvent` calls, collecting each call's result in order. -/
def XmlReplay.runNext : XmlReplay → String → Nat → List (Option XmlReplayEvent) × XmlReplay
  | r, _, 0 => ([], r)
  | r, t, n + 1 =>
    let (e, r') := r.getNextEvent t
    let (rest, rf) := XmlReplay.runNext r' t n
    (e :: rest, rf)

/-! ### DeviceConnectionManager -/

/-- `DeviceConnectionManager`: the active record sink (modelled as the list
of event elements written so far), the active replay store, and the cached
port list `m_serialPorts` (default-empty on construction). -/
structure DeviceConnectionManager where
  m_record : Option (List Xml)
  m_replay : Option XmlReplay
  m_serialPorts : List SerialPortInfo

/-- Modelled from the spec: `DeviceConnectionManager::reset()` is called by
`replay(...)` but its body is outside the excerpt; per §4.5 of the spec,
switching replay source "resets any transient cached state derived from
prior replay", i.e. the cached serial-port list. -/
def DeviceConnectionManager.reset (mgr : DeviceConnectionManager) :
    DeviceConnectionManager :=
  { mgr with m_serialPorts := [] }

/-- `DeviceConnectionManager::replay(...)`: resets the transient cache and
replaces the replay store (`none` turns replay off and returns the manager
to live behavior). -/
def DeviceConnectionManager.setReplay (mgr : DeviceConnectionManager)
    (r : Option XmlReplay) : DeviceConnectionManager :=
  { mgr.reset with m_replay := r }

/-- `XmlReplayEvent::record`: appends the serialized event to the record
sink when one is active, otherwise does nothing. -/
def recordEvent (record : Option (List Xml)) (event : XmlReplayEvent) :
    Option (List Xml) :=
  match record with
  | some tr => some (tr ++ [writeXmlReplayEvent event])
  | none => none

/-- `DeviceConnectionManager::getAvailablePorts`: with no replay store the
external `QSerialPortInfo::availablePorts()` enumeration (passed as
`external`) is wrapped entry by entry; with a replay store the next stored
`getAvailablePorts` event supplies the ports, and when the trace is
exhausted the most recent cached list is reused.  Whatever list results is
cached in `m_serialPorts`, recorded if a record session is active, and
returned.  (`getNextEvent<GetAvailablePortsEvent>` is a `dynamic_cast`; every
event stored under this tag was built by this variant's factory, so in the
model the cast is the identity.) -/
def DeviceConnectionManager.getAvailablePorts (mgr : DeviceConnectionManager)
    (now : Int) (external : List QSerialPortInfo) :
    List SerialPortInfo × DeviceConnectionManager :=
  let ports : List SerialPortInfo :=
    match mgr.m_replay with
    | none => external.map SerialPortInfo.ofQSerialPortInfo
    | some replay =>
      match (replay.getNextEvent GetAvailablePortsEvent.TAG).1 with
      | some replayEvent => replayEvent.ports
      | none => mgr.m_serialPorts
  let replay' := mgr.m_replay.map
    (fun r => (r.getNextEvent GetAvailablePortsEvent.TAG).2)
  let event : XmlReplayEvent := ⟨now, .getAvailablePorts ports⟩
  (ports,
   { m_record := recordEvent mgr.m_record event,
     m_replay := replay',
     m_serialPorts := ports })

/-- Repeated `getAvailablePorts` calls; `times i` and `externals i` are the
clock and the live enumeration at the `i`-th call. -/
def DeviceConnectionManager.runGetAvailablePorts :
    DeviceConnectionManager → (Nat → Int) → (Nat → List QSerialPortInfo) → Nat →
    List (List SerialPortInfo) × DeviceConnectionManager
  | mgr, _, _, 0 => ([], mgr)
  | mgr, times, externals, n + 1 =>
    let (ports, mgr') := mgr.getAvailablePorts (times 0) (externals 0)
    let (rest, final) :=
      DeviceConnectionManager.runGetAvailablePorts mgr'
        (fun i => times (i + 1)) (fun i => externals (i + 1)) n
    (ports :: rest, final)

/-! ### SerialPort configuration setters -/

/-- `SetValueEvent`: a name→value bag plus the key order, recording one
configuration attempt's parameters and outcome. -/
structure SetValueEvent where
  m_values : List (String × Int)
  m_keys : List String
deriving DecidableEq

/-- `SetValueEvent::set`. -/
def SetValueEvent.set (e : SetValueEvent) (name : String) (value : Int) :
    SetValueEvent :=
  { m_values := hinsert e.m_values name value, m_keys := e.m_keys ++ [name] }

/-- `SetValueEvent::SetValueEvent(name, value)`. -/
def SetValueEvent.init (name : String) (value : Int) : SetValueEvent :=
  SetValueEvent.set ⟨[], []⟩ name value

/-- `SetValueEvent::ok()`: true iff no `error` key was recorded. -/
def SetValueEvent.ok (e : SetValueEvent) : Bool :=
  !(hcontains e.m_values "error")

/-- `operator<<(QXmlStreamWriter &, const SetValueEvent &)`: a `set` element
with one attribute per recorded key, in recording order. -/
def writeSetValueEvent (e : SetValueEvent) : Xml :=
  Xml.elem "set"
    (e.m_keys.map (fun k => (k, intToQString ((hlookup e.m_values k).getD 0)))) []

/-- The externally visible behavior of the wrapped `QSerialPort` for one
configuration call: whether the set succeeds, and the error code
`m_port.error()` reports when it fails. -/
structure QSerialPort where
  setResult : Bool
  errorCode : Int

/-- Observable outcome of one configuration setter: the returned boolean,
the `SetValueEvent` built, the `qDebug` emissions (the source streams the
event's XML text to the debug log), and the XML record trace, which these
setters never touch (cf. the source's "TODO: log these to XML"). -/
structure SetterOutcome where
  result : Bool
  event : SetValueEvent
  debugLog : List Xml
  record : List Xml

/-- Common body of the five configuration setters: build the event from the
attempted values, call the external capability, record the error code on
failure, emit the event on the debug log, and return `event.ok()`.  The XML
record trace is returned unchanged — the source never serializes
`SetValueEvent`s into it. -/
def runSetter (port : QSerialPort) (event₀ : SetValueEvent) (record : List Xml) :
    SetterOutcome :=
  let ok := port.setResult
  let event := if ok then event₀ else event₀.set "error" port.errorCode
  { result := event.ok, event := event,
    debugLog := [writeSetValueEvent event], record := record }

/-- `SerialPort::setBaudRate`. -/
def SerialPort.setBaudRate (port : QSerialPort) (baudRate : Int)
    (directions : Int) (record : List Xml) : SetterOutcome :=
  runSetter port ((SetValueEvent.init "baudRate" baudRate).set "directions" directions) record

/-- `SerialPort::setDataBits`. -/
def SerialPort.setDataBits (port : QSerialPort) (dataBits : Int)
    (record : List Xml) : SetterOutcome :=
  runSetter port (SetValueEvent.init "setDataBits" dataBits) record

/-- `SerialPort::setParity`. -/
def SerialPort.setParity (port : QSerialPort) (parity : Int)
    (record : List Xml) : SetterOutcome :=
  runSetter port (SetValueEvent.init "setParity" parity) record

/-- `SerialPort::setStopBits`. -/
def SerialPort.setStopBits (port : QSerialPort) (stopBits : Int)
    (record : List Xml) : SetterOutcome :=
  runSetter port (SetValueEvent.init "setStopBits" stopBits) record

/-- `SerialPort::setFlowControl`. -/
def SerialPort.setFlowControl (port : QSerialPort) (flowControl : Int)
    (record : List Xml) : SetterOutcome :=
  runSetter port (SetValueEvent.init "setFlowControl" flowControl) record

/-! ### QHash lemmas -/

theorem hlookup_hinsert_self {α : Type} (m : List (String × α)) (k : String) (v : α) :
    hlookup (hinsert m k v) k = some v := by
  induction m with
  | nil => simp [hinsert, hlookup]
  | cons p rest ih =>
    obtain ⟨a, b⟩ := p
    by_cases h : k = a <;> simp [hinsert, hlookup, h, ih]

theorem hlookup_hinsert_ne {α : Type} (m : List (String × α)) (k k' : String) (v : α)
    (h : k' ≠ k) : hlookup (hinsert m k v) k' = hlookup m k' := by
  induction m with
  | nil => simp [hinsert, hlookup, h]
  | cons p rest ih =>
    obtain ⟨a, b⟩ := p
    by_cases hk : k = a
    · subst hk
      simp [hinsert, hlookup, h]
    · by_cases hk' : k' = a <;> simp [hinsert, hlookup, hk, hk', ih]

theorem hlookup_eq_none_of_hcontains_false {α : Type} {m : List (String × α)}
    {k : String} (h : hcontains m k = false) : hlookup m k = none := by
  unfold hcontains at h
  cases hv : hlookup m k with
  | none => rfl
  | some v => rw [hv] at h; simp at h

/-! ### Cursor step lemma -/

theorem getNextEvent_spec (r : XmlReplay) (t : String) :
    (r.getNextEvent t).1 = ((hlookup r.m_events t).getD []).get? (r.cursorOf t) ∧
    (r.getNextEvent t).2.m_events = r.m_events ∧
    (r.getNextEvent t).2.cursorOf t =
      (if r.cursorOf t < ((hlookup r.m_events t).getD []).length
       then r.cursorOf t + 1 else r.cursorOf t) := by
  unfold XmlReplay.getNextEvent
  by_cases he : hcontains r.m_events t
  · have hidx : (hlookup (if hcontains r.m_indices t then r.m_indices
        else hinsert r.m_indices t 0) t).getD 0 = r.cursorOf t := by
      by_cases hi : hcontains r.m_indices t
      · simp [hi, XmlReplay.cursorOf]
      · simp [hi, hlookup_hinsert_self, XmlReplay.cursorOf,
          hlookup_eq_none_of_hcontains_false (by simpa using hi)]
    by_cases hlt : r.cursorOf t < ((hlookup r.m_events t).getD []).length
    · simp only [he, if_true, hidx, hlt, dif_pos]
      refine ⟨?_, by trivial, ?_⟩
      · exact (List.get?_eq_get hlt).symm
      · simp [XmlReplay.cursorOf, hlookup_hinsert_self, hlt]
    · simp only [he, if_true, hidx, hlt, dif_neg, not_false_iff]
      refine ⟨?_, by trivial, ?_⟩
      · exact (List.get?_eq_none.mpr (Nat.le_of_not_lt hlt)).symm
      · by_cases hi : hcontains r.m_indices t
        · simp [hi, XmlReplay.cursorOf, hlt]
        · simp [hi, XmlReplay.cursorOf, hlookup_hinsert_self,
            hlookup_eq_none_of_hcontains_false (by simpa using hi), hlt]
  · have hnone : hlookup r.m_events t = none :=
      hlookup_eq_none_of_hcontains_false (by simpa using he)
    simp [he, hnone]

theorem runNext_general (t : String) : ∀ (n : Nat) (r : XmlReplay),
    (r.runNext t n).1 = (List.range n).map
      (fun i => ((hlookup r.m_events t).getD []).get? (r.cursorOf t + i)) ∧
    (r.runNext t n).2.m_events = r.m_events ∧
    (r.runNext t n).2.cursorOf t =
      max (r.cursorOf t)
        (min (r.cursorOf t + n) ((hlookup r.m_events t).getD []).length) := by
  intro n
  induction n with
  | zero =>
    intro r
    refine ⟨rfl, rfl, ?_⟩
    simp [XmlReplay.runNext]
  | succ n ih =>
    intro r
    obtain ⟨h1, h2, h3⟩ := getNextEvent_spec r t
    rcases hgr : r.getNextEvent t with ⟨e, r'⟩
    rw [hgr] at h1 h2 h3
    simp only at h1 h2 h3
    obtain ⟨ih1, ih2, ih3⟩ := ih r'
    rcases hrn : r'.runNext t n with ⟨rest, rf⟩
    rw [hrn] at ih1 ih2 ih3
    simp only at ih1 ih2 ih3
    rw [h2] at ih1 ih2 ih3
    have hrw : r.runNext t (n + 1) = (e :: rest, rf) := by
      simp [XmlReplay.runNext, hgr, hrn]
    rw [hrw]
    refine ⟨?_, by simpa using ih2, ?_⟩
    · show e :: rest = _
      rw [List.range_succ_eq_map, List.map_cons, List.map_map]
      refine List.cons_eq_cons.mpr ⟨by simpa using h1, ?_⟩
      rw [ih1]
      apply List.map_congr_left
      intro i _
      simp only [Function.comp]
      by_cases hlt : r.cursorOf t < ((hlookup r.m_events t).getD []).length
      · rw [h3, if_pos hlt]
        congr 1
        omega
      · rw [h3, if_neg hlt,
          List.get?_eq_none.mpr (by omega), List.get?_eq_none.mpr (by omega)]
    · show rf.cursorOf t = _
      rw [ih3, h3]
      by_cases hlt : r.cursorOf t < ((hlookup r.m_events t).getD []).length
      · rw [if_pos hlt]; omega
      · rw [if_neg hlt]; omega

/-- **C3**: on a loaded replay store (fresh cursors), repeated `next(tag)`
calls return the stored events of that tag in original document order, the
`i`-th call yielding the `i`-th stored event and none after exhaustion; the
cursor advances by one per returned event and stops at the sequence's end
(`min n len` after `n` calls), so no event is ever repeated. -/
theorem xmlReplay_next_cursor_monotonicity (evmap : EventsMap) (t : String) (n : Nat) :
    ((XmlReplay.mk evmap []).runNext t n).1 =
      (List.range n).map (fun i => ((hlookup evmap t).getD []).get? i) ∧
    ((XmlReplay.mk evmap []).runNext t n).2.cursorOf t =
      min n ((hlookup evmap t).getD []).length := by
  obtain ⟨h1, h2, h3⟩ := runNext_general t n ⟨evmap, []⟩
  have hcur : (XmlReplay.mk evmap []).cursorOf t = 0 := rfl
  constructor
  · simpa [hcur] using h1
  · rw [hcur] at h3
    simpa using h3

/-! ### Replay behavior of getAvailablePorts -/

theorem getAvailablePorts_replay_step (mgr : DeviceConnectionManager)
    (r : XmlReplay) (l : List XmlReplayEvent) (now : Int)
    (ext : List QSerialPortInfo)
    (hr : mgr.m_replay = some r)
    (he : r.m_events = [(GetAvailablePortsEvent.TAG, l)]) :
    (mgr.getAvailablePorts now ext).1 =
      (match l.get? (r.cursorOf GetAvailablePortsEvent.TAG) with
       | some e => e.ports
       | none => mgr.m_serialPorts) ∧
    (mgr.getAvailablePorts now ext).2.m_serialPorts = (mgr.getAvailablePorts now ext).1 ∧
    ∃ r', (mgr.getAvailablePorts now ext).2.m_replay = some r' ∧
      r'.m_events = [(GetAvailablePortsEvent.TAG, l)] ∧
      r'.cursorOf GetAvailablePortsEvent.TAG =
        (if r.cursorOf GetAvailablePortsEvent.TAG < l.length
         then r.cursorOf GetAvailablePortsEvent.TAG + 1
         else r.cursorOf GetAvailablePortsEvent.TAG) := by
  obtain ⟨h1, h2, h3⟩ := getNextEvent_spec r GetAvailablePortsEvent.TAG
  have hl : hlookup r.m_events GetAvailablePortsEvent.TAG = some l := by
    rw [he]; simp [hlookup]
  rw [hl] at h1 h3
  simp only [Option.getD_some] at h1 h3
  refine ⟨?_, ?_, (r.getNextEvent GetAvailablePortsEvent.TAG).2, ?_, ?_, ?_⟩
  · simp only [DeviceConnectionManager.getAvailablePorts, hr, h1]
  · rfl
  · simp only [DeviceConnectionManager.getAvailablePorts, hr, Option.map_some']
  · rw [h2, he]
  · exact h3

/-- Closed-form result of the `i`-th `getAvailablePorts` call during replay,
starting from cursor `j` and cached list `c`, with stored events `l`. -/
def replayPortsSpec (l : List XmlReplayEvent) (j : Nat) (c : List SerialPortInfo)
    (i : Nat) : List SerialPortInfo :=
  match l.get? (j + i) with
  | some e => e.ports
  | none =>
    if j < l.length
    then ((l.get? (l.length - 1)).map XmlReplayEvent.ports).getD []
    else c

theorem replayPortsSpec_step (l : List XmlReplayEvent) (j : Nat)
    (c : List SerialPortInfo) (i : Nat) :
    replayPortsSpec l j c (i + 1) =
      replayPortsSpec l (if j < l.length then j + 1 else j)
        (match l.get? j with | some e => e.ports | none => c) i := by
  unfold replayPortsSpec
  by_cases hlt : j < l.length
  · simp only [if_pos hlt]
    rw [List.get?_eq_get hlt]
    have hidx : j + (i + 1) = j + 1 + i := by omega
    rw [hidx]
    rcases hget2 : l.get? (j + 1 + i) with _ | e2
    · have hge2 : l.length ≤ j + 1 + i := List.get?_eq_none.mp hget2
      by_cases hlt1 : j + 1 < l.length
      · simp [hlt1]
      · have hjlast : j = l.length - 1 := by omega
        subst hjlast
        rw [List.get?_eq_get hlt]
        simp [hlt1]
    · rfl
  · simp only [if_neg hlt]
    have hge : l.length ≤ j := Nat.le_of_not_lt hlt
    rw [List.get?_eq_none.mpr (by omega), List.get?_eq_none.mpr (by omega),
      List.get?_eq_none.mpr (by omega)]

theorem runGAP_spec : ∀ (n : Nat) (mgr : DeviceConnectionManager)
    (r : XmlReplay) (l : List XmlReplayEvent)
    (times : Nat → Int) (exts : Nat → List QSerialPortInfo),
    mgr.m_replay = some r →
    r.m_events = [(GetAvailablePortsEvent.TAG, l)] →
    ∀ i, i < n →
      (mgr.runGetAvailablePorts times exts n).1.get? i =
        some (replayPortsSpec l (r.cursorOf GetAvailablePortsEvent.TAG)
          mgr.m_serialPorts i) := by
  intro n
  induction n with
  | zero => intro mgr r l times exts hr he i hi; omega
  | succ n ih =>
    intro mgr r l times exts hr he i hi
    obtain ⟨h1, h2, ⟨r', hr', he', hc'⟩⟩ :=
      getAvailablePorts_replay_step mgr r l (times 0) (exts 0) hr he
    rcases hgap : mgr.getAvailablePorts (times 0) (exts 0) with ⟨v, mgr'⟩
    rw [hgap] at h1 h2 hr'
    simp only at h1 h2 hr'
    have hrun : (mgr.runGetAvailablePorts times exts (n + 1)).1 =
        v :: (mgr'.runGetAvailablePorts (fun i => times (i + 1))
          (fun i => exts (i + 1)) n).1 := by
      simp [DeviceConnectionManager.runGetAvailablePorts, hgap]
    rw [hrun]
    match i with
    | 0 =>
      rw [List.get?_cons_zero, h1]
      unfold replayPortsSpec
      rw [Nat.add_zero]
      rcases hget : l.get? (r.cursorOf GetAvailablePortsEvent.TAG) with _ | e
      · have hge : ¬ r.cursorOf GetAvailablePortsEvent.TAG < l.length := by
          intro hlt
          rw [List.get?_eq_get hlt] at hget
          exact Option.noConfusion hget
        simp [hge]
      · rfl
    | Nat.succ i =>
      have hi' : i < n := by omega
      have hrest := ih mgr' r' l (fun i => times (i + 1)) (fun i => exts (i + 1))
        hr' he' i hi'
      rw [List.get?_cons_succ, hrest, hc', h2, h1]
      congr 1
      exact (replayPortsSpec_step l (r.cursorOf GetAvailablePortsEvent.TAG)
        mgr.m_serialPorts i).symm

/-- **C1**: under an active replay session loaded from a trace whose
`getAvailablePorts` sequence stores the events `l` (so N = `l.length`),
calling `getAvailablePorts` N+k times (k ≥ 1) returns the N stored port
lists in document order for the first N calls, and every subsequent call
returns the same descriptor list as the N-th call; when N = 0 and no prior
call has been made, every call returns the empty list. -/
theorem manager_getAvailablePorts_exhaustion_fallback
    (l : List XmlReplayEvent) (k : Nat) (hk : 1 ≤ k)
    (prior : DeviceConnectionManager) (times : Nat → Int)
    (exts : Nat → List QSerialPortInfo) :
    ∀ i, i < l.length + k →
      ((prior.setReplay
          (some ⟨[(GetAvailablePortsEvent.TAG, l)], []⟩)).runGetAvailablePorts
          times exts (l.length + k)).1.get? i =
        some (if h : i < l.length then (l.get ⟨i, h⟩).ports
              else if hnil : l = [] then []
              else (l.getLast hnil).ports) := by
  intro i hi
  have hrun := runGAP_spec (l.length + k)
    (prior.setReplay (some ⟨[(GetAvailablePortsEvent.TAG, l)], []⟩))
    ⟨[(GetAvailablePortsEvent.TAG, l)], []⟩ l times exts rfl rfl i hi
  rw [hrun]
  congr 1
  have hcur : (XmlReplay.mk [(GetAvailablePortsEvent.TAG, l)] []).cursorOf
      GetAvailablePortsEvent.TAG = 0 := rfl
  have hcache : (prior.setReplay
      (some ⟨[(GetAvailablePortsEvent.TAG, l)], []⟩)).m_serialPorts = [] := rfl
  rw [hcur, hcache]
  unfold replayPortsSpec
  rw [Nat.zero_add]
  by_cases h : i < l.length
  · rw [List.get?_eq_get h, dif_pos h]
  · rw [List.get?_eq_none.mpr (Nat.le_of_not_lt h), dif_neg h]
    by_cases hnil : l = []
    · subst hnil
      simp
    · have hlen : 0 < l.length := List.length_pos.mpr hnil
      rw [if_pos hlen, dif_neg hnil, List.getLast_eq_getElem,
        List.get?_eq_get (by omega)]
      simp

theorem manager_getAvailablePorts_exhaustion_fallback_witness :
    (((DeviceConnectionManager.mk none none []).setReplay
        (some ⟨[(GetAvailablePortsEvent.TAG,
          [⟨0, .getAvailablePorts []⟩,
           ⟨1, .getAvailablePorts [⟨[("portName", QVariant.str "COM1")]⟩]⟩])],
          []⟩)).runGetAvailablePorts
        (fun _ => 0) (fun _ => []) 3).1.get? 2 =
      some [⟨[("portName", QVariant.str "COM1")]⟩] :=
  manager_getAvailablePorts_exhaustion_fallback
    [⟨0, .getAvailablePorts []⟩,
     ⟨1, .getAvailablePorts [⟨[("portName", QVariant.str "COM1")]⟩]⟩]
    1 (by decide) (DeviceConnectionManager.mk none none [])
    (fun _ => 0) (fun _ => []) 2 (by decide)

/-- **C8**: while a replay session is active and its store still holds an
unconsumed `getAvailablePorts` event, the list returned by
`getAvailablePorts` is determined entirely by the replay trace and the
manager's state: two calls differing only in what the external port lister
would enumerate produce identical outcomes, namely the stored event's
ports — the external capability is never consulted. -/
theorem getAvailablePorts_replay_noninterference
    (mgr : DeviceConnectionManager) (r : XmlReplay) (ev : XmlReplayEvent)
    (r' : XmlReplay) (now : Int)
    (hr : mgr.m_replay = some r)
    (hev : r.getNextEvent GetAvailablePortsEvent.TAG = (some ev, r')) :
    ∀ ext₁ ext₂ : List QSerialPortInfo,
      mgr.getAvailablePorts now ext₁ = mgr.getAvailablePorts now ext₂ ∧
      (mgr.getAvailablePorts now ext₁).1 = ev.ports := by
  intro ext₁ ext₂
  constructor
  · simp only [DeviceConnectionManager.getAvailablePorts, hr, hev]
  · simp only [DeviceConnectionManager.getAvailablePorts, hr, hev]

theorem getAvailablePorts_replay_noninterference_witness :
    (DeviceConnectionManager.mk none
        (some ⟨[(GetAvailablePortsEvent.TAG, [⟨0, .getAvailablePorts []⟩])], []⟩)
        []).getAvailablePorts 5
        [⟨false, "ttyS0", "/dev/ttyS0", "a", "b", "c", false, 0, false, 0⟩] =
      (DeviceConnectionManager.mk none
        (some ⟨[(GetAvailablePortsEvent.TAG, [⟨0, .getAvailablePorts []⟩])], []⟩)
        []).getAvailablePorts 5 [] ∧
    ((DeviceConnectionManager.mk none
        (some ⟨[(GetAvailablePortsEvent.TAG, [⟨0, .getAvailablePorts []⟩])], []⟩)
        []).getAvailablePorts 5
        [⟨false, "ttyS0", "/dev/ttyS0", "a", "b", "c", false, 0, false, 0⟩]).1 =
      (XmlReplayEvent.mk 0 (.getAvailablePorts [])).ports :=
  getAvailablePorts_replay_noninterference
    (DeviceConnectionManager.mk none
      (some ⟨[(GetAvailablePortsEvent.TAG, [⟨0, .getAvailablePorts []⟩])], []⟩) [])
    ⟨[(GetAvailablePortsEvent.TAG, [⟨0, .getAvailablePorts []⟩])], []⟩
    ⟨0, .getAvailablePorts []⟩
    ⟨[(GetAvailablePortsEvent.TAG, [⟨0, .getAvailablePorts []⟩])],
      [(GetAvailablePortsEvent.TAG, 1)]⟩
    5 rfl rfl
    [⟨false, "ttyS0", "/dev/ttyS0", "a", "b", "c", false, 0, false, 0⟩] []

/-- **C5**: registering a second constructor under an already-registered tag
returns false, emits a diagnostic, and leaves the registry (hence the
originally registered constructor) untouched; registering under a fresh tag
returns true, adds the mapping, leaves every other tag's mapping unchanged,
and emits no diagnostic. -/
theorem registerClass_registry_uniqueness
    (s : Factories) (tag : String) (factory : FactoryMethod) :
    (hcontains s tag = true →
      (registerClass tag factory s).1 = false ∧
      (registerClass tag factory s).2.1 = s ∧
      (registerClass tag factory s).2.2 =
        ["Event class already registered for tag " ++ tag]) ∧
    (hcontains s tag = false →
      (registerClass tag factory s).1 = true ∧
      hlookup (registerClass tag factory s).2.1 tag = some factory ∧
      (∀ t, t ≠ tag → hlookup (registerClass tag factory s).2.1 t = hlookup s t) ∧
      (registerClass tag factory s).2.2 = []) := by
  constructor
  · intro hdup
    simp [registerClass, hdup]
  · intro hfresh
    refine ⟨?_, ?_, ?_, ?_⟩
    · simp [registerClass, hfresh]
    · simp [registerClass, hfresh, hlookup_hinsert_self]
    · intro t ht
      simp [registerClass, hfresh, hlookup_hinsert_ne s tag t factory ht]
    · simp [registerClass, hfresh]

theorem registerClass_registry_uniqueness_witness :
    ((registerClass GetAvailablePortsEvent.TAG
        GetAvailablePortsEvent.createInstance s_factories).1 = false ∧
     (registerClass GetAvailablePortsEvent.TAG
        GetAvailablePortsEvent.createInstance s_factories).2.1 = s_factories) ∧
    ((registerClass "setBaudRate" GetAvailablePortsEvent.createInstance []).1 = true ∧
     hlookup (registerClass "setBaudRate"
        GetAvailablePortsEvent.createInstance []).2.1 "setBaudRate" =
       some GetAvailablePortsEvent.createInstance) :=
  ⟨⟨((registerClass_registry_uniqueness s_factories GetAvailablePortsEvent.TAG
        GetAvailablePortsEvent.createInstance).1 rfl).1,
    ((registerClass_registry_uniqueness s_factories GetAvailablePortsEvent.TAG
        GetAvailablePortsEvent.createInstance).1 rfl).2.1⟩,
   ⟨((registerClass_registry_uniqueness [] "setBaudRate"
        GetAvailablePortsEvent.createInstance).2 rfl).1,
    ((registerClass_registry_uniqueness [] "setBaudRate"
        GetAvailablePortsEvent.createInstance).2 rfl).2.1⟩⟩

/-! ### Trace loading: unknown-tag tolerance -/

theorem deserializeEvents_registered (reg : Factories) (now : Int) (tag : String)
    (f : FactoryMethod) (hf : hlookup reg tag = some f) :
    ∀ (children : List Xml) (m : EventsMap) (d : List String),
      (hlookup (deserializeEvents reg now (m, d) children).1 tag).getD [] =
        (hlookup m tag).getD [] ++
          (children.filter (fun c => c.name = tag)).map
            (fun c => (readXmlReplayEvent c (f now) now).1) := by
  intro children
  induction children with
  | nil => intro m d; simp [deserializeEvents]
  | cons c rest ih =>
    intro m d
    by_cases hc : c.name = tag
    · have hci : createInstance c.name reg now = (some (f now), []) := by
        rw [hc]; simp [createInstance, hf]
      rw [List.filter_cons_of_pos (by simp [hc])]
      simp only [deserializeEvents, hci]
      rw [ih, hc]
      simp [hlookup_hinsert_self]
    · rw [List.filter_cons_of_neg (by simp [hc])]
      rcases hcn : hlookup reg c.name with _ | g
      · have hci : createInstance c.name reg now =
            (none, ["No event class registered for XML tag " ++ c.name]) := by
          simp [createInstance, hcn]
        simp only [deserializeEvents, hci]
        exact ih m (d ++ ["No event class registered for XML tag " ++ c.name])
      · have hci : createInstance c.name reg now = (some (g now), []) := by
          simp [createInstance, hcn]
        simp only [deserializeEvents, hci]
        rw [ih]
        rw [hlookup_hinsert_ne _ _ _ _ (fun h => hc h.symm)]

theorem deserializeEvents_unregistered (reg : Factories) (now : Int) (tag : String)
    (hf : hlookup reg tag = none) :
    ∀ (children : List Xml) (m : EventsMap) (d : List String),
      hlookup (deserializeEvents reg now (m, d) children).1 tag = hlookup m tag := by
  intro children
  induction children with
  | nil => intro m d; rfl
  | cons c rest ih =>
    intro m d
    rcases hcn : hlookup reg c.name with _ | g
    · have hci : createInstance c.name reg now =
          (none, ["No event class registered for XML tag " ++ c.name]) := by
        simp [createInstance, hcn]
      simp only [deserializeEvents, hci]
      exact ih m (d ++ ["No event class registered for XML tag " ++ c.name])
    · have hne : c.name ≠ tag := by
        intro h
        rw [h, hf] at hcn
        exact Option.noConfusion hcn
      have hci : createInstance c.name reg now = (some (g now), []) := by
        simp [createInstance, hcn]
      simp only [deserializeEvents, hci]
      rw [ih]
      rw [hlookup_hinsert_ne _ _ _ _ (fun h => hne h.symm)]

theorem deserializeEvents_diag_mono (reg : Factories) (now : Int) :
    ∀ (children : List Xml) (acc : EventsMap × List String) (s : String),
      s ∈ acc.2 → s ∈ (deserializeEvents reg now acc children).2 := by
  intro children
  induction children with
  | nil => intro acc s hs; exact hs
  | cons c rest ih =>
    intro acc s hs
    rcases hcn : createInstance c.name reg now with ⟨oe, dd⟩
    cases oe with
    | none =>
      have hstep : deserializeEvents reg now acc (c :: rest) =
          deserializeEvents reg now (acc.1, acc.2 ++ dd) rest := by
        simp only [deserializeEvents, hcn]
      rw [hstep]
      exact ih _ s (List.mem_append_left _ hs)
    | some ev =>
      have hstep : deserializeEvents reg now acc (c :: rest) =
          deserializeEvents reg now
            (hinsert acc.1 c.name ((hlookup acc.1 c.name).getD [] ++
              [(readXmlReplayEvent c ev now).1]),
             acc.2 ++ dd ++ (readXmlReplayEvent c ev now).2) rest := by
        simp only [deserializeEvents, hcn]
      rw [hstep]
      exact ih _ s (List.mem_append_left _ (List.mem_append_left _ hs))

theorem deserializeEvents_diag (reg : Factories) (now : Int) :
    ∀ (children : List Xml) (m : EventsMap) (d : List String) (c : Xml),
      c ∈ children → hlookup reg c.name = none →
      ("No event class registered for XML tag " ++ c.name) ∈
        (deserializeEvents reg now (m, d) children).2 := by
  intro children
  induction children with
  | nil => intro m d c hc; cases hc
  | cons a rest ih =>
    intro m d c hc hn
    rcases List.mem_cons.mp hc with rfl | hmem
    · have hci : createInstance c.name reg now =
          (none, ["No event class registered for XML tag " ++ c.name]) := by
        simp [createInstance, hn]
      simp only [deserializeEvents, hci]
      apply deserializeEvents_diag_mono
      simp
    · rcases hcn : createInstance a.name reg now with ⟨oe, dd⟩
      cases oe with
      | none =>
        have hstep : deserializeEvents reg now (m, d) (a :: rest) =
            deserializeEvents reg now (m, d ++ dd) rest := by
          simp only [deserializeEvents, hcn]
        rw [hstep]
        exact ih _ _ c hmem hn
      | some ev =>
        have hstep : deserializeEvents reg now (m, d) (a :: rest) =
            deserializeEvents reg now
              (hinsert m a.name ((hlookup m a.name).getD [] ++
                [(readXmlReplayEvent a ev now).1]),
               d ++ dd ++ (readXmlReplayEvent a ev now).2) rest := by
          simp only [deserializeEvents, hcn]
        rw [hstep]
        exact ih _ _ c hmem hn

/-- **C6**: loading a trace document whose events container includes
elements with unregistered tags always succeeds: each unregistered element
is skipped with a diagnostic and contributes no events, while every sibling
with a registered tag is constructed, populated, and appended to its tag's
sequence in document order. -/
theorem deserialize_unknown_tag_tolerance (children : List Xml) (now : Int) :
    (∀ tag f, hlookup s_factories tag = some f →
      (hlookup (XmlReplay.deserialize s_factories now
          (Xml.elem "xmlreplay" [] [Xml.elem "events" [] children])).1 tag).getD [] =
        (children.filter (fun c => c.name = tag)).map
          (fun c => (readXmlReplayEvent c (f now) now).1)) ∧
    (∀ tag, hlookup s_factories tag = none →
      hlookup (XmlReplay.deserialize s_factories now
          (Xml.elem "xmlreplay" [] [Xml.elem "events" [] children])).1 tag = none) ∧
    (∀ c : Xml, c ∈ children → hlookup s_factories c.name = none →
      ("No event class registered for XML tag " ++ c.name) ∈
        (XmlReplay.deserialize s_factories now
          (Xml.elem "xmlreplay" [] [Xml.elem "events" [] children])).2) := by
  have hdoc : XmlReplay.deserialize s_factories now
      (Xml.elem "xmlreplay" [] [Xml.elem "events" [] children]) =
      deserializeEvents s_factories now ([], []) children := by
    simp [XmlReplay.deserialize, Xml.name, Xml.children]
  refine ⟨?_, ?_, ?_⟩
  · intro tag f hf
    rw [hdoc]
    have := deserializeEvents_registered s_factories now tag f hf children [] []
    simpa [hlookup] using this
  · intro tag hf
    rw [hdoc]
    have := deserializeEvents_unregistered s_factories now tag hf children [] []
    simpa [hlookup] using this
  · intro c hc hn
    rw [hdoc]
    exact deserializeEvents_diag s_factories now children [] [] c hc hn

theorem deserialize_unknown_tag_tolerance_witness :
    ((hlookup (XmlReplay.deserialize s_factories 100
        (Xml.elem "xmlreplay" []
          [Xml.elem "events" []
            [Xml.elem "getAvailablePorts" [("time", "5")] [],
             Xml.elem "bogus" [] []]])).1
        GetAvailablePortsEvent.TAG).getD [] =
      [⟨100, EventData.getAvailablePorts []⟩]) ∧
    (hlookup (XmlReplay.deserialize s_factories 100
        (Xml.elem "xmlreplay" []
          [Xml.elem "events" []
            [Xml.elem "getAvailablePorts" [("time", "5")] [],
             Xml.elem "bogus" [] []]])).1 "bogus" = none) ∧
    ("No event class registered for XML tag bogus" ∈
      (XmlReplay.deserialize s_factories 100
        (Xml.elem "xmlreplay" []
          [Xml.elem "events" []
            [Xml.elem "getAvailablePorts" [("time", "5")] [],
             Xml.elem "bogus" [] []]])).2) :=
  ⟨(deserialize_unknown_tag_tolerance
      [Xml.elem "getAvailablePorts" [("time", "5")] [], Xml.elem "bogus" [] []]
      100).1 GetAvailablePortsEvent.TAG GetAvailablePortsEvent.createInstance rfl,
   (deserialize_unknown_tag_tolerance
      [Xml.elem "getAvailablePorts" [("time", "5")] [], Xml.elem "bogus" [] []]
      100).2.1 "bogus" rfl,
   (deserialize_unknown_tag_tolerance
      [Xml.elem "getAvailablePorts" [("time", "5")] [], Xml.elem "bogus" [] []]
      100).2.2 (Xml.elem "bogus" [] [])
      (List.mem_cons_of_mem _ (List.mem_cons_self _ _)) rfl⟩

/-! ### Serial attribute parsing -/

theorem foldl_readSerialAttr_skip (aname : String) :
    ∀ (attrs : List (String × String)) (acc : SerialPortInfo × List String),
      (∀ p ∈ attrs, p.1 ≠ aname) →
      hlookup (attrs.foldl readSerialAttr acc).1.m_info aname =
        hlookup acc.1.m_info aname := by
  intro attrs
  induction attrs with
  | nil => intro acc _; rfl
  | cons a rest ih =>
    intro acc h
    rw [List.foldl_cons, ih _ (fun p hp => h p (List.mem_cons_of_mem _ hp))]
    have hne : a.1 ≠ aname := h a (List.mem_cons_self _ _)
    unfold readSerialAttr
    by_cases hid : a.1 = "vendorIdentifier" ∨ a.1 = "productIdentifier"
    · rw [if_pos hid]
      rcases toUIntBase0 a.2 with _ | idv
      · rfl
      · exact hlookup_hinsert_ne _ _ _ _ (Ne.symm hne)
    · rw [if_neg hid]
      exact hlookup_hinsert_ne _ _ _ _ (Ne.symm hne)

theorem foldl_readSerialAttr_diag_mono :
    ∀ (attrs : List (String × String)) (acc : SerialPortInfo × List String)
      (s : String), s ∈ acc.2 → s ∈ (attrs.foldl readSerialAttr acc).2 := by
  intro attrs
  induction attrs with
  | nil => intro acc s hs; exact hs
  | cons a rest ih =>
    intro acc s hs
    rw [List.foldl_cons]
    apply ih
    unfold readSerialAttr
    by_cases hid : a.1 = "vendorIdentifier" ∨ a.1 = "productIdentifier"
    · rw [if_pos hid]
      rcases toUIntBase0 a.2 with _ | idv
      · exact List.mem_append_left _ hs
      · exact hs
    · rw [if_neg hid]
      exact hs

/-- **C9**: when a `serial` element is parsed, an identifier attribute
(`vendorIdentifier`/`productIdentifier`) whose value fails to parse as an
unsigned integer is left absent from the attribute bag (with a diagnostic)
rather than being stored as zero; an identifier that parses is stored
(narrowed to 16 bits), and every non-identifier attribute of the same
element is stored as a string.  Absence thus stays distinguishable from a
zero identifier even for malformed input. -/
theorem serial_invalid_identifier_left_absent (attrs : List (String × String))
    (hnodup : (attrs.map Prod.fst).Nodup) :
    ∀ aname avalue, (aname, avalue) ∈ attrs →
      ((aname = "vendorIdentifier" ∨ aname = "productIdentifier") →
        (toUIntBase0 avalue = none →
          hlookup (readSerialPortInfo (Xml.elem "serial" attrs [])).1.m_info aname =
            none ∧
          ("invalid " ++ aname ++ " value " ++ avalue) ∈
            (readSerialPortInfo (Xml.elem "serial" attrs [])).2) ∧
        (∀ id, toUIntBase0 avalue = some id →
          hlookup (readSerialPortInfo (Xml.elem "serial" attrs [])).1.m_info aname =
            some (.uint (id % 65536)))) ∧
      (¬(aname = "vendorIdentifier" ∨ aname = "productIdentifier") →
        hlookup (readSerialPortInfo (Xml.elem "serial" attrs [])).1.m_info aname =
          some (.str avalue)) := by
  intro aname avalue hmem
  have hread : readSerialPortInfo (Xml.elem "serial" attrs []) =
      attrs.foldl readSerialAttr (⟨[]⟩, []) := by
    simp [readSerialPortInfo, Xml.name, Xml.attrs]
  obtain ⟨pre, post, rfl⟩ := List.append_of_mem hmem
  rw [List.map_append, List.map_cons] at hnodup
  have hnd := List.nodup_append.mp hnodup
  have hpost : aname ∉ post.map Prod.fst := (List.nodup_cons.mp hnd.2.1).1
  have hpre : aname ∉ pre.map Prod.fst := by
    intro hin
    exact hnd.2.2 hin (List.mem_cons_self _ _)
  have hpostne : ∀ p ∈ post, p.1 ≠ aname := by
    intro p hp hpeq
    exact hpost (hpeq ▸ List.mem_map_of_mem Prod.fst hp)
  have hprene : ∀ p ∈ pre, p.1 ≠ aname := by
    intro p hp hpeq
    exact hpre (hpeq ▸ List.mem_map_of_mem Prod.fst hp)
  have hfold : (pre ++ (aname, avalue) :: post).foldl readSerialAttr
      ((⟨[]⟩, []) : SerialPortInfo × List String) =
      post.foldl readSerialAttr
        (readSerialAttr (pre.foldl readSerialAttr (⟨[]⟩, [])) (aname, avalue)) := by
    rw [List.foldl_append, List.foldl_cons]
  have hprelookup :
      hlookup (pre.foldl readSerialAttr
        ((⟨[]⟩, []) : SerialPortInfo × List String)).1.m_info aname = none := by
    rw [foldl_readSerialAttr_skip aname pre _ hprene]
    rfl
  constructor
  · intro hid
    constructor
    · intro htu
      have hA : readSerialAttr (pre.foldl readSerialAttr (⟨[]⟩, []))
          (aname, avalue) =
          ((pre.foldl readSerialAttr (⟨[]⟩, [])).1,
           (pre.foldl readSerialAttr (⟨[]⟩, [])).2 ++
             ["invalid " ++ aname ++ " value " ++ avalue]) := by
        simp [readSerialAttr, hid, htu]
      constructor
      · rw [hread, hfold, foldl_readSerialAttr_skip aname post _ hpostne, hA]
        exact hprelookup
      · rw [hread, hfold]
        apply foldl_readSerialAttr_diag_mono
        rw [hA]
        exact List.mem_append_right _ (List.mem_cons_self _ _)
    · intro id htu
      have hA : readSerialAttr (pre.foldl readSerialAttr (⟨[]⟩, []))
          (aname, avalue) =
          (⟨hinsert (pre.foldl readSerialAttr (⟨[]⟩, [])).1.m_info aname
             (.uint (id % 65536))⟩,
           (pre.foldl readSerialAttr (⟨[]⟩, [])).2) := by
        simp [readSerialAttr, hid, htu]
      rw [hread, hfold, foldl_readSerialAttr_skip aname post _ hpostne, hA]
      exact hlookup_hinsert_self _ _ _
  · intro hid
    have hA : readSerialAttr (pre.foldl readSerialAttr (⟨[]⟩, []))
        (aname, avalue) =
        (⟨hinsert (pre.foldl readSerialAttr (⟨[]⟩, [])).1.m_info aname
           (.str avalue)⟩,
         (pre.foldl readSerialAttr (⟨[]⟩, [])).2) := by
      simp [readSerialAttr, hid]
    rw [hread, hfold, foldl_readSerialAttr_skip aname post _ hpostne, hA]
    exact hlookup_hinsert_self _ _ _

theorem serial_invalid_identifier_left_absent_witness :
    (hlookup (readSerialPortInfo (Xml.elem "serial"
        [("portName", "COM1"), ("vendorIdentifier", "zzz")] [])).1.m_info
      "vendorIdentifier" = none) ∧
    ("invalid vendorIdentifier value zzz" ∈
      (readSerialPortInfo (Xml.elem "serial"
        [("portName", "COM1"), ("vendorIdentifier", "zzz")] [])).2) ∧
    (hlookup (readSerialPortInfo (Xml.elem "serial"
        [("portName", "COM1"), ("vendorIdentifier", "zzz")] [])).1.m_info
      "portName" = some (.str "COM1")) :=
  ⟨(((serial_invalid_identifier_left_absent
        [("portName", "COM1"), ("vendorIdentifier", "zzz")] (by decide)
        "vendorIdentifier" "zzz" (by decide)).1 (Or.inl rfl)).1 rfl).1,
   (((serial_invalid_identifier_left_absent
        [("portName", "COM1"), ("vendorIdentifier", "zzz")] (by decide)
        "vendorIdentifier" "zzz" (by decide)).1 (Or.inl rfl)).1 rfl).2,
   ((serial_invalid_identifier_left_absent
        [("portName", "COM1"), ("vendorIdentifier", "zzz")] (by decide)
        "portName" "COM1" (by decide)).2 (by decide))⟩

/-! ### Timestamp dead store and round-trip -/

/-- **C2** (code bug): deserializing a trace element carrying a `time`
attribute does not override the event's timestamp.  The source parses the
attribute into a local variable and never assigns it to `event.m_time` (a
dead store), so the event keeps its construction-time default: here the
element carries time 5, the event was constructed at time 100, and the
deserialized event's timestamp is 100, not the parsed 5. -/
theorem deserialize_timestamp_dead_store :
    (readXmlReplayEvent (Xml.elem "getAvailablePorts" [("time", "5")] [])
        (GetAvailablePortsEvent.createInstance 100) 100).1.m_time = 100 ∧
    parseDateTime "5" = 5 ∧ (5 : Int) ≠ 100 :=
  ⟨rfl, rfl, by decide⟩

/-- **C4** (code bug): round-tripping a `getAvailablePorts` event through
serialize/deserialize reproduces the payload — the descriptor list is equal
element-by-element under attribute-bag comparison — but not the timestamp:
because of the dead store in the event deserializer, the reconstructed event
carries its own construction time (1000000 here), not the serialized
timestamp (0 here), exceeding any millisecond tolerance. -/
theorem roundtrip_payload_preserved_timestamp_lost :
    listPortsEq
      (readXmlReplayEvent
        (writeXmlReplayEvent ⟨0, .getAvailablePorts
          [SerialPortInfo.ofQSerialPortInfo
            ⟨false, "ttyUSB0", "/dev/ttyUSB0", "UART Bridge", "Acme", "0001",
             true, 4292, true, 60000⟩]⟩)
        (GetAvailablePortsEvent.createInstance 1000000) 1000000).1.ports
      [SerialPortInfo.ofQSerialPortInfo
        ⟨false, "ttyUSB0", "/dev/ttyUSB0", "UART Bridge", "Acme", "0001",
         true, 4292, true, 60000⟩] = true ∧
    (readXmlReplayEvent
        (writeXmlReplayEvent ⟨0, .getAvailablePorts
          [SerialPortInfo.ofQSerialPortInfo
            ⟨false, "ttyUSB0", "/dev/ttyUSB0", "UART Bridge", "Acme", "0001",
             true, 4292, true, 60000⟩]⟩)
        (GetAvailablePortsEvent.createInstance 1000000) 1000000).1.m_time =
      1000000 ∧
    (XmlReplayEvent.mk 0 (.getAvailablePorts
      [SerialPortInfo.ofQSerialPortInfo
        ⟨false, "ttyUSB0", "/dev/ttyUSB0", "UART Bridge", "Acme", "0001",
         true, 4292, true, 60000⟩])).m_time = 0 :=
  ⟨rfl, rfl, rfl⟩

/-- **C10**: a null serial port descriptor (empty attribute bag) serializes
as a `serial` element with no attributes, and deserializing that element
yields a descriptor with an empty attribute bag, equal to the original under
the attribute-bag equality operator. -/
theorem null_descriptor_roundtrip :
    writeSerialPortInfo ⟨[]⟩ = Xml.elem "serial" [] [] ∧
    readSerialPortInfo (Xml.elem "serial" [] []) = (⟨[]⟩, []) ∧
    SerialPortInfo.eq ⟨[]⟩ (readSerialPortInfo (writeSerialPortInfo ⟨[]⟩)).1 = true :=
  ⟨rfl, rfl, rfl⟩

/-! ### Configuration setter failures -/

/-- **C7** (amended): when the external capability reports failure, each of
the five configuration setters returns false and produces a structured
outcome event holding the attempted value and the reported error code; the
event is emitted on the diagnostic (qDebug) log, but it is not recorded into
the XML replay trace — the record trace passes through unchanged (the source
marks XML logging of these events as a TODO). -/
theorem setter_failure_outcome (port : QSerialPort) (h : port.setResult = false)
    (v d : Int) (rec : List Xml) :
    ((SerialPort.setBaudRate port v d rec).result = false ∧
     hlookup (SerialPort.setBaudRate port v d rec).event.m_values "baudRate" =
       some v ∧
     hlookup (SerialPort.setBaudRate port v d rec).event.m_values "error" =
       some port.errorCode ∧
     (SerialPort.setBaudRate port v d rec).debugLog =
       [writeSetValueEvent (SerialPort.setBaudRate port v d rec).event] ∧
     (SerialPort.setBaudRate port v d rec).record = rec) ∧
    ((SerialPort.setDataBits port v rec).result = false ∧
     hlookup (SerialPort.setDataBits port v rec).event.m_values "setDataBits" =
       some v ∧
     hlookup (SerialPort.setDataBits port v rec).event.m_values "error" =
       some port.errorCode ∧
     (SerialPort.setDataBits port v rec).debugLog =
       [writeSetValueEvent (SerialPort.setDataBits port v rec).event] ∧
     (SerialPort.setDataBits port v rec).record = rec) ∧
    ((SerialPort.setParity port v rec).result = false ∧
     hlookup (SerialPort.setParity port v rec).event.m_values "setParity" =
       some v ∧
     hlookup (SerialPort.setParity port v rec).event.m_values "error" =
       some port.errorCode ∧
     (SerialPort.setParity port v rec).debugLog =
       [writeSetValueEvent (SerialPort.setParity port v rec).event] ∧
     (SerialPort.setParity port v rec).record = rec) ∧
    ((SerialPort.setStopBits port v rec).result = false ∧
     hlookup (SerialPort.setStopBits port v rec).event.m_values "setStopBits" =
       some v ∧
     hlookup (SerialPort.setStopBits port v rec).event.m_values "error" =
       some port.errorCode ∧
     (SerialPort.setStopBits port v rec).debugLog =
       [writeSetValueEvent (SerialPort.setStopBits port v rec).event] ∧
     (SerialPort.setStopBits port v rec).record = rec) ∧
    ((SerialPort.setFlowControl port v rec).result = false ∧
     hlookup (SerialPort.setFlowControl port v rec).event.m_values
       "setFlowControl" = some v ∧
     hlookup (SerialPort.setFlowControl port v rec).event.m_values "error" =
       some port.errorCode ∧
     (SerialPort.setFlowControl port v rec).debugLog =
       [writeSetValueEvent (SerialPort.setFlowControl port v rec).event] ∧
     (SerialPort.setFlowControl port v rec).record = rec) := by
  refine ⟨?_, ?_, ?_, ?_, ?_⟩ <;>
    simp [SerialPort.setBaudRate, SerialPort.setDataBits, SerialPort.setParity,
      SerialPort.setStopBits, SerialPort.setFlowControl, runSetter,
      SetValueEvent.init, SetValueEvent.set, SetValueEvent.ok, h,
      hinsert, hlookup, hcontains]

theorem setter_failure_outcome_witness :
    (SerialPort.setBaudRate ⟨false, 9⟩ 19200 3 []).result = false ∧
    hlookup (SerialPort.setBaudRate ⟨false, 9⟩ 19200 3 []).event.m_values
      "baudRate" = some 19200 ∧
    hlookup (SerialPort.setBaudRate ⟨false, 9⟩ 19200 3 []).event.m_values
      "error" = some 9 ∧
    (SerialPort.setFlowControl ⟨false, 9⟩ 1 []).result = false :=
  ⟨(setter_failure_outcome ⟨false, 9⟩ rfl 19200 3 []).1.1,
   (setter_failure_outcome ⟨false, 9⟩ rfl 19200 3 []).1.2.1,
   (setter_failure_outcome ⟨false, 9⟩ rfl 19200 3 []).1.2.2.1,
   (setter_failure_outcome ⟨false, 9⟩ rfl 1 0 []).2.2.2.2.1⟩

/-- **C7** counterexample: at a concrete failing call (the port rejects
baud rate 19200 with error code 9), the setter returns false and builds the
outcome event, yet the XML record trace stays empty — the outcome event is
not appended to the trace, contradicting the claim that the failure becomes
part of the reproducible trace. -/
theorem setter_failure_not_recorded :
    (SerialPort.setBaudRate ⟨false, 9⟩ 19200 3 []).result = false ∧
    (SerialPort.setBaudRate ⟨false, 9⟩ 19200 3 []).record = [] ∧
    (SerialPort.setBaudRate ⟨false, 9⟩ 19200 3 []).record ≠
      [writeSetValueEvent (SerialPort.setBaudRate ⟨false, 9⟩ 19200 3 []).event] := by
  refine ⟨rfl, rfl, ?_⟩
  have hrec : (SerialPort.setBaudRate ⟨false, 9⟩ 19200 3 []).record = [] := rfl
  rw [hrec]
  exact fun hcontra => List.noConfusion hcontra

end DeviceConnection
